import Mathlib

/-!
Verification of the evidently workspace/project persistence layer
(`src/evidently/ui/workspace.py`) and the test-suite counter panel
(`src/evidently/ui/dashboard/test_suites.py`).

The embedding models UUIDs as natural numbers, parsed snapshot payloads as
records, the on-disk snapshot store as an association list keyed by the full
file path, and the pydantic `Project` model as a record of its public fields
plus its private attributes (`_snapshots`, `_workspace`).  Fallible steps
(`ValidationError` on `Snapshot.load`) are modelled by `Option`/flags.
-/

/-- Generic association-list lookup, modelling a Python dict read. -/
def alLookup {α β : Type} [DecidableEq α] : List (α × β) → α → Option β
  | [], _ => none
  | (k, v) :: rest, a => if k = a then some v else alLookup rest a

/-- Generic association-list insert, modelling a Python dict write
(`d[k] = v`): an existing key keeps its position, a new key is appended,
matching insertion-ordered Python dicts. -/
def alInsert {α β : Type} [DecidableEq α] (a : α) (b : β) : List (α × β) → List (α × β)
  | [] => [(a, b)]
  | (k, v) :: rest => if k = a then (k, b) :: rest else (k, v) :: alInsert a b rest

/-- Model of `uuid.UUID` values, given by their 128-bit integer value. -/
abbrev UUIDv := Nat

/-- A parsed `Snapshot` value (`evidently.suite.base_suite.Snapshot`):
the fields the code under verification consults, plus an opaque payload
distinguishing otherwise equal snapshots. -/
structure SnapshotV where
  id : UUIDv
  is_report : Bool
  timestamp : Int
  payload : Nat
deriving DecidableEq

/-- The result of `Snapshot.as_report()` / `Snapshot.as_test_suite()`:
a `ReportBase` object carrying the snapshot timestamp. -/
structure ReportV where
  id : UUIDv
  timestamp : Int
  payload : Nat
  isReportKind : Bool
deriving DecidableEq

def SnapshotV.as_report (s : SnapshotV) : ReportV :=
  ⟨s.id, s.timestamp, s.payload, true⟩

def SnapshotV.as_test_suite (s : SnapshotV) : ReportV :=
  ⟨s.id, s.timestamp, s.payload, false⟩

/-- The `DashboardInfo` produced by `report._build_dashboard_info()`,
opaque except for the report it was built from. -/
structure DashboardInfoV where
  fromReport : ReportV
deriving DecidableEq

/-- The additional-graphs dict produced by `report._build_dashboard_info()`. -/
structure AdditionalGraphsV where
  fromReport : ReportV
deriving DecidableEq

/-- The call `report._build_dashboard_info()` is external to the verified files; it is
modelled as a total function of the report, returning the second and third
components of the Python triple. -/
def buildDashboardInfoOf (r : ReportV) : DashboardInfoV × AdditionalGraphsV :=
  (⟨r⟩, ⟨r⟩)

/-- The directory of one project: `os.path.join(workspace.path, str(project.id))`.
Since `str` is injective on UUID objects, the joined path is modelled by its
two components. -/
structure ProjPath where
  workspacePath : String
  projectId : UUIDv
deriving DecidableEq

/-- Path of one snapshot file:
`os.path.join(project.path, "snapshots", str(id) + ".json")`, again modelled
by its components (the filename component is `str(id) + ".json"`). -/
structure SnapPath where
  projectDir : ProjPath
  snapshotId : UUIDv
deriving DecidableEq

/-- Embedding of `ProjectSnapshot.path`. -/
def ProjectSnapshot.path (projectPath : ProjPath) (id : UUIDv) : SnapPath :=
  ⟨projectPath, id⟩

/-- The snapshot files on disk: full path to file content, where `none`
content stands for a file whose parse raises `ValidationError`. -/
abbrev SnapFS := List (SnapPath × Option SnapshotV)

/-- Listing (`os.listdir`) of one project snapshots directory, paired with each file
content; the first component of each entry is the UUID parsed from the file
name (`uuid.UUID(file[: -len(".json")])`). -/
def listSnapshotDir (proj : ProjPath) (fs : SnapFS) : List (UUIDv × Option SnapshotV) :=
  (fs.filter (fun e => e.1.projectDir = proj)).map (fun e => (e.1.snapshotId, e.2))

/-- In-memory state of a `ProjectSnapshot` object: its id and the four lazy
cache fields `_value`, `_report`, `_dashboard_info`, `_additional_graphs`. -/
structure PSnapState where
  id : UUIDv
  value? : Option SnapshotV
  report? : Option ReportV
  dashboard_info? : Option DashboardInfoV
  additional_graphs? : Option AdditionalGraphsV
deriving DecidableEq

/-- Constructor `ProjectSnapshot.__init__(id, project, value)`: only `_value` is
populated, and only when a value is passed. -/
def PSnapState.mk' (id : UUIDv) (value : Option SnapshotV) : PSnapState :=
  ⟨id, value, none, none, none⟩

/-- The `_snapshots` private attribute of a `Project`. -/
abbrev SnapCache := List (UUIDv × PSnapState)

/-- Model of `DashboardConfig`: a name and an ordered list of panels (panels are
opaque here). -/
structure DashboardConfigV where
  name : String
  panels : List Nat
deriving DecidableEq

/-- The public pydantic fields of a `Project`, which live in the instance
`__dict__`. -/
structure ProjectV where
  id : UUIDv
  name : String
  description : Option String
  dashboard : DashboardConfigV
deriving DecidableEq

/-- Content of a `metadata.json` file once parsed. -/
abbrev ProjectMetadata := ProjectV

/-- Embedding of `Project.load(path)`: parse `metadata.json` when present; on
`FileNotFoundError` (modelled by `none`) return a fresh default project.
`freshId` is the UUID drawn by the `default_factory=uuid.uuid4` of the
`id` field in that case.  No exception escapes for an absent file. -/
def Project.load (metadataFile : Option ProjectMetadata) (freshId : UUIDv) : ProjectV :=
  match metadataFile with
  | some m => m
  | none => ⟨freshId, "Unnamed Project", none, ⟨"Dashboard", []⟩⟩

/-- State of a bound `Project`: the public fields (instance `__dict__`) plus
the private attributes `_workspace` (its path) and `_snapshots`.  Private
attributes of a pydantic v1 model with `underscore_attrs_are_private` are
stored in `__slots__`, not in `__dict__`. -/
structure ProjState where
  fields : ProjectV
  workspacePath : String
  snapshots : SnapCache
deriving DecidableEq

/-- The `Project.path` property. -/
def ProjState.path (st : ProjState) : ProjPath :=
  ⟨st.workspacePath, st.fields.id⟩

/-- Embedding of `Project.add_snapshot(snapshot)`: build the `ProjectSnapshot` item,
write the file at `item.path` (`snapshot.save`), then register the item in
`_snapshots` under `item.id`. -/
def Project.add_snapshot (st : ProjState) (fs : SnapFS) (s : SnapshotV) :
    ProjState × SnapFS :=
  let item := PSnapState.mk' s.id (some s)
  let fs' := alInsert (ProjectSnapshot.path st.path s.id) (some s) fs
  ({ st with snapshots := alInsert s.id item st.snapshots }, fs')

/-- Embedding of `Project.reload()`: re-read `metadata.json` and perform
`self.__dict__.update(project.__dict__)`.  Only the public fields live in
`__dict__`; `_snapshots` and `_workspace` are slot-stored private
attributes, hence untouched by the update. -/
def Project.reload (st : ProjState) (metadataFile : Option ProjectMetadata)
    (freshId : UUIDv) : ProjState :=
  { st with fields := Project.load metadataFile freshId }

/-- The loop body of `Project._reload_snapshots`: walk the directory
listing; a file whose id is already cached is skipped before any parse; a
file that fails validation is skipped under `skip_errors=True` and re-raised
(second component `true`, loop abandoned) under `skip_errors=False`; any
other file is parsed and inserted into the cache. -/
def Project.reloadSnapshotsList (skip_errors : Bool)
    (entries : List (UUIDv × Option SnapshotV)) (cache : SnapCache) :
    SnapCache × Bool :=
  match entries with
  | [] => (cache, false)
  | (sid, content) :: rest =>
    if (alLookup cache sid).isSome then
      Project.reloadSnapshotsList skip_errors rest cache
    else
      match content with
      | none =>
        if skip_errors then Project.reloadSnapshotsList skip_errors rest cache
        else (cache, true)
      | some suite =>
        Project.reloadSnapshotsList skip_errors rest
          (alInsert sid (PSnapState.mk' sid (some suite)) cache)

/-- Embedding of `Project._reload_snapshots(skip_errors)` over the project state: list
the snapshots directory and fold the loop; the flag reports whether a
`ValidationError` was re-raised. -/
def Project.reload_snapshots (skip_errors : Bool) (st : ProjState) (fs : SnapFS) :
    ProjState × Bool :=
  let r := Project.reloadSnapshotsList skip_errors (listSnapshotDir st.path fs) st.snapshots
  ({ st with snapshots := r.1 }, r.2)

/-- The `ProjectSnapshot.value` property as read by the `reports` view:
the cached `_value` when present, otherwise `Snapshot.load(self.path)`
(which raises, i.e. `none`, when the file is absent or invalid). -/
def ProjectSnapshot.valueProp (projPath : ProjPath) (fs : SnapFS) (p : PSnapState) :
    Option SnapshotV :=
  match p.value? with
  | some v => some v
  | none => Option.join (alLookup fs (ProjectSnapshot.path projPath p.id))

/-- The `Project.reports` property: run `_reload_snapshots()` (with its
default `skip_errors=True`), then return the cached snapshots whose value
`is_report`, as reports.  A `none` value (a raise inside the Python dict
comprehension) drops out here; every cache entry produced by the operations
above carries its value, so that branch is unreachable in those runs. -/
def Project.reports (st : ProjState) (fs : SnapFS) : List (UUIDv × ReportV) :=
  let st' := (Project.reload_snapshots true st fs).1
  st'.snapshots.filterMap (fun kv =>
    match ProjectSnapshot.valueProp st'.path fs kv.2 with
    | some v => if v.is_report then some (kv.1, v.as_report) else none
    | none => none)

/-- Embedding of `Project.build_dashboard_info(timestamp_start, timestamp_end)`:
`self.reload()`, then filter `self.reports.values()` by the half-open time
window and hand the surviving reports to
`self.dashboard.build_dashboard_info`.  The function returns the exact list
passed to that external builder. -/
def Project.build_dashboard_info (st : ProjState) (fs : SnapFS)
    (metadataFile : Option ProjectMetadata) (freshId : UUIDv)
    (timestamp_start timestamp_end : Option Int) : List ReportV :=
  let st1 := Project.reload st metadataFile freshId
  ((Project.reports st1 fs).map (fun kv => kv.2)).filter (fun r =>
    (match timestamp_start with
     | none => true
     | some ts => decide (ts ≤ r.timestamp)) &&
    (match timestamp_end with
     | none => true
     | some te => decide (r.timestamp < te)))

/-- One entry of `os.listdir(workspace.path)`, as consumed by
`Workspace._load_projects`: whether it is a directory, the content of its
`metadata.json` (when present), and the UUID `uuid.uuid4` would draw for a
missing metadata file. -/
structure WsEntry where
  name : String
  isDir : Bool
  metadataFile : Option ProjectMetadata
  freshId : UUIDv
deriving DecidableEq

/-- Loading `Project.load(...).bind(self)` for one workspace subdirectory: a freshly
loaded project has an empty `_snapshots` cache. -/
def Project.loadBound (wsPath : String) (e : WsEntry) : ProjState :=
  ⟨Project.load e.metadataFile e.freshId, wsPath, []⟩

/-- The list comprehension of `Workspace._load_projects`: one loaded and
bound project per subdirectory of the workspace path. -/
def Workspace.loadedProjects (wsPath : String) (entries : List WsEntry) : List ProjState :=
  (entries.filter (fun e => e.isDir)).map (Project.loadBound wsPath)

/-- Embedding of `Workspace._load_projects`: key the loaded projects by `p.id`; a dict
comprehension lets a later project with the same id overwrite an earlier
one. -/
def Workspace.load_projects (wsPath : String) (entries : List WsEntry) :
    List (UUIDv × ProjState) :=
  (Workspace.loadedProjects wsPath entries).foldl
    (fun m p => alInsert p.fields.id p m) []

/-- In-memory state of a `Workspace`: its path and the `_projects` dict. -/
structure WsState where
  path : String
  projects : List (UUIDv × ProjState)
deriving DecidableEq

/-- Embedding of `Workspace.__init__(path)`: scan the directory once and build
`_projects`.  The second component counts the directory scans performed
(`os.listdir` is called exactly once, inside `_load_projects`). -/
def Workspace.init (path : String) (entries : List WsEntry) : WsState × Nat :=
  (⟨path, Workspace.load_projects path entries⟩, 1)

/-- Embedding of `Workspace.get_project(project_id)`: a plain dict `.get`, `None` when
absent; no directory access. -/
def Workspace.get_project (w : WsState) (pid : UUIDv) : Option ProjState :=
  alLookup w.projects pid

/-- Embedding of `Workspace.list_projects()`: the values of `_projects`; no directory
access. -/
def Workspace.list_projects (w : WsState) : List ProjState :=
  w.projects.map (fun kv => kv.2)

/-- Embedding of `Workspace.add_snapshot(project_id, snapshot)`:
`self._projects[project_id]` raises `KeyError` on an unknown id, before any
file is touched; otherwise the project ingests the snapshot.  The `Option
String` component carries the raised error, `none` on success. -/
def Workspace.add_snapshot (w : WsState) (fs : SnapFS) (pid : UUIDv) (s : SnapshotV) :
    (WsState × SnapFS) × Option String :=
  match alLookup w.projects pid with
  | none => ((w, fs), some ("KeyError"))
  | some pst =>
    let r := Project.add_snapshot pst fs s
    (({ w with projects := alInsert pid r.1 w.projects }, r.2), none)

/-- Both `WorkspaceBase.add_report` and `add_test_suite` delegate to `add_snapshot`
with `item.to_snapshot()`; the conversion is external, so both are the same
operation on an arbitrary snapshot. -/
def Workspace.add_report (w : WsState) (fs : SnapFS) (pid : UUIDv)
    (reportSnapshot : SnapshotV) : (WsState × SnapFS) × Option String :=
  Workspace.add_snapshot w fs pid reportSnapshot

/-- Embedding of `ProjectSnapshot.load()`: `self._value = Snapshot.load(self.path)` (the
single file read, counted by the callers), then
`self.report._build_dashboard_info()`.  The `report` property consulted
there reads `self.value`, which is now cached, so no further file read
occurs inside `load`. -/
def ProjectSnapshot.loadM (file : SnapshotV) (s : PSnapState) : PSnapState :=
  let s1 := { s with value? := some file }
  let r2 :=
    match s1.report? with
    | some r => (r, s1)
    | none =>
      let v := file
      let r := if v.is_report then v.as_report else v.as_test_suite
      (r, { s1 with report? := some r })
  let dg := buildDashboardInfoOf r2.1
  { r2.2 with dashboard_info? := some dg.1, additional_graphs? := some dg.2 }

/-- The `value` property: return the cached `_value`, or `load()` (one file
read).  The second component counts file reads. -/
def accessValue (file : SnapshotV) (s : PSnapState) : PSnapState × Nat :=
  match s.value? with
  | some _ => (s, 0)
  | none => (ProjectSnapshot.loadM file s, 1)

/-- The `report` property: return the cached `_report`, or compute it from
`self.value` — the property expression reads `self.value` twice (once for
`is_report`, once for the conversion), each read a potential load. -/
def accessReport (file : SnapshotV) (s : PSnapState) : PSnapState × Nat :=
  match s.report? with
  | some _ => (s, 0)
  | none =>
    let a1 := accessValue file s
    let a2 := accessValue file a1.1
    let v := a2.1.value?.getD file
    let r := if v.is_report then v.as_report else v.as_test_suite
    ({ a2.1 with report? := some r }, a1.2 + a2.2)

/-- The `dashboard_info` property: cached `_dashboard_info`, or `load()`. -/
def accessDashboardInfo (file : SnapshotV) (s : PSnapState) : PSnapState × Nat :=
  match s.dashboard_info? with
  | some _ => (s, 0)
  | none => (ProjectSnapshot.loadM file s, 1)

/-- The `additional_graphs` property: cached `_additional_graphs`, or
`load()`. -/
def accessAdditionalGraphs (file : SnapshotV) (s : PSnapState) : PSnapState × Nat :=
  match s.additional_graphs? with
  | some _ => (s, 0)
  | none => (ProjectSnapshot.loadM file s, 1)

/-- One property access on a `ProjectSnapshot`. -/
inductive Access
  | value
  | report
  | dashboard_info
  | additional_graphs
deriving DecidableEq

/-- Dispatch one access, returning the new state and the number of file
reads it performed. -/
def runAccess (file : SnapshotV) (a : Access) (s : PSnapState) : PSnapState × Nat :=
  match a with
  | .value => accessValue file s
  | .report => accessReport file s
  | .dashboard_info => accessDashboardInfo file s
  | .additional_graphs => accessAdditionalGraphs file s

/-- Run a sequence of property accesses, totalling the file reads. -/
def runAccesses (file : SnapshotV) (l : List Access) (s : PSnapState) : PSnapState × Nat :=
  match l with
  | [] => (s, 0)
  | a :: rest =>
    let r1 := runAccess file a s
    let r2 := runAccesses file rest r1.1
    (r2.1, r1.2 + r2.2)

/-- Model of `TestStatus` of `evidently.tests.base_test` (external to the verified
files; values modelled from their use as `s.value` strings). -/
inductive TestStatus
  | SUCCESS
  | FAIL
  | WARNING
  | ERROR
  | SKIPPED
deriving DecidableEq

/-- The `.value` string of a `TestStatus` member. -/
def TestStatus.value : TestStatus → String
  | .SUCCESS => "SUCCESS"
  | .FAIL => "FAIL"
  | .WARNING => "WARNING"
  | .ERROR => "ERROR"
  | .SKIPPED => "SKIPPED"

/-- Configuration of a `DashboardPanelTestSuiteCounter` with
`agg = CounterAgg.NONE`: its title and its `statuses` list. -/
structure TestSuiteCounterPanel where
  title : String
  statuses : List TestStatus
deriving DecidableEq

/-- The points returned by `data_storage.load_test_results` as consumed by
`_build_none`: per point a pair whose second component holds the test
statuses of that point (the loop is `for _, values in points.values()`).
The collected `Counter` is represented by the concatenated multiset. -/
def buildNoneStatuses (points : List (Nat × List TestStatus)) : List TestStatus :=
  (points.map (fun kv => kv.2)).flatten

/-- Embedding of `total = sum(statuses.values())`. -/
def counterTotal (c : List TestStatus) : Nat := c.length

/-- Embedding of `value = sum(statuses[s] for s in self.statuses)`: `statuses[s]` is the
multiplicity of `s` in the collected counter. -/
def counterValue (panelStatuses : List TestStatus) (c : List TestStatus) : Nat :=
  (panelStatuses.map (fun s => c.count s)).sum

/-- Embedding of `", ".join(s.value for s in self.statuses)`. -/
def statusesJoin (l : List TestStatus) : String :=
  String.intercalate (", ") (l.map TestStatus.value)

/-- The counter text rendered by `DashboardPanelTestSuiteCounter.build` for
`agg = CounterAgg.NONE` (`_build_none` returns an empty postfix string):
`f"{value}/{total} {statuses_join}{postfix}"`. -/
def DashboardPanelTestSuiteCounter.buildText (panel : TestSuiteCounterPanel)
    (points : List (Nat × List TestStatus)) : String :=
  let statuses := buildNoneStatuses points
  let total := counterTotal statuses
  let value := counterValue panel.statuses statuses
  toString value ++ "/" ++ toString total ++ " " ++ statusesJoin panel.statuses ++ ""

/-- One mutating project operation of the kind claim C3 ranges over. -/
inductive ProjOp
  | add (s : SnapshotV)
  | reloadSnaps
deriving DecidableEq

/-- Apply one operation to the project state and the disk. -/
def applyOp (x : ProjState × SnapFS) (op : ProjOp) : ProjState × SnapFS :=
  match op with
  | .add s => Project.add_snapshot x.1 x.2 s
  | .reloadSnaps => ((Project.reload_snapshots true x.1 x.2).1, x.2)

/-- Apply a sequence of operations. -/
def applyOps (x : ProjState × SnapFS) (ops : List ProjOp) : ProjState × SnapFS :=
  ops.foldl applyOp x

/-- The invariant of claim C3: every cached snapshot id has its file present
in the snapshots directory on disk. -/
def cacheSubset (st : ProjState) (fs : SnapFS) : Prop :=
  ∀ sid ∈ st.snapshots.map Prod.fst,
    ProjectSnapshot.path st.path sid ∈ fs.map Prod.fst

/-- A `ProjectSnapshot` state in which the three caches populated by
`load()` are all set: from here no property access reads the file. -/
def fullySet (s : PSnapState) : Prop :=
  s.value?.isSome ∧ s.dashboard_info?.isSome ∧ s.additional_graphs?.isSome

theorem alLookup_alInsert {α β : Type} [DecidableEq α] (m : List (α × β)) (k a : α) (v : β) :
    alLookup (alInsert k v m) a = if k = a then some v else alLookup m a := by
  induction m with
  | nil => simp [alInsert, alLookup]
  | cons hd tl ih =>
    obtain ⟨k', w⟩ := hd
    by_cases h1 : k' = k
    · subst h1
      simp [alInsert, alLookup]
      by_cases h2 : k' = a <;> simp [h2]
    · simp [alInsert, alLookup, h1]
      by_cases h2 : k' = a
      · subst h2
        have : ¬ k = k' := fun h => h1 h.symm
        simp [alLookup, this]
      · simp [alLookup, h2, ih]

theorem mem_map_fst_alInsert {α β : Type} [DecidableEq α] (m : List (α × β)) (k a : α) (v : β) :
    a ∈ (alInsert k v m).map Prod.fst ↔ a = k ∨ a ∈ m.map Prod.fst := by
  induction m with
  | nil => simp [alInsert]
  | cons hd tl ih =>
    obtain ⟨k', w⟩ := hd
    by_cases h1 : k' = k
    · subst h1
      simp [alInsert]
    · simp only [alInsert, h1, ih, if_false, List.map_cons, List.mem_cons]
      tauto

theorem alLookup_isSome_of_mem {α β : Type} [DecidableEq α] {m : List (α × β)} {p : α × β}
    (h : p ∈ m) : (alLookup m p.1).isSome := by
  induction m with
  | nil => simp at h
  | cons hd tl ih =>
    obtain ⟨k', w⟩ := hd
    rcases List.mem_cons.1 h with h | h
    · subst h
      simp [alLookup]
    · by_cases h2 : k' = p.1 <;> simp [alLookup, h2, ih h]

theorem alLookup_append {α β : Type} [DecidableEq α] (m1 m2 : List (α × β)) (a : α) :
    alLookup (m1 ++ m2) a =
      match alLookup m1 a with
      | some v => some v
      | none => alLookup m2 a := by
  induction m1 with
  | nil => simp [alLookup]
  | cons hd tl ih =>
    obtain ⟨k', w⟩ := hd
    by_cases h : k' = a <;> simp [alLookup, h, ih]

theorem alInsert_eq_append {α β : Type} [DecidableEq α] {m : List (α × β)} {k : α}
    (v : β) (h : alLookup m k = none) : alInsert k v m = m ++ [(k, v)] := by
  induction m with
  | nil => simp [alInsert]
  | cons hd tl ih =>
    obtain ⟨k', w⟩ := hd
    by_cases h1 : k' = k
    · subst h1
      simp [alLookup] at h
    · simp [alLookup, h1] at h
      simp [alInsert, h1, ih h]

/-- Claim C8: for a path whose `metadata.json` is absent, `Project.load`
does not raise and returns a fresh default project named "Unnamed Project"
with an empty panel list and the newly drawn UUID as its identity. -/
theorem c8_load_missing_metadata_default (freshId : UUIDv) :
    Project.load none freshId
      = ⟨freshId, "Unnamed Project", none, ⟨"Dashboard", []⟩⟩ ∧
    (Project.load none freshId).name = "Unnamed Project" ∧
    (Project.load none freshId).dashboard.panels = [] ∧
    (Project.load none freshId).id = freshId := by
  exact ⟨rfl, rfl, rfl, rfl⟩

/-- Claim C9: an unknown project id makes `Workspace.get_project` return
`None`, while `Workspace.add_snapshot` (hence `add_report` and
`add_test_suite`, which delegate to it) raises `KeyError` with the
workspace, every project and the disk left unchanged. -/
theorem c9_missing_project_asymmetry (w : WsState) (fs : SnapFS) (pid : UUIDv)
    (s : SnapshotV) (h : alLookup w.projects pid = none) :
    Workspace.get_project w pid = none ∧
    Workspace.add_snapshot w fs pid s = ((w, fs), some ("KeyError")) ∧
    Workspace.add_report w fs pid s = ((w, fs), some ("KeyError")) := by
  refine ⟨h, ?_, ?_⟩ <;> simp [Workspace.add_snapshot, Workspace.add_report, h]

theorem c9_missing_project_asymmetry_witness :
    Workspace.get_project ⟨"w", []⟩ 3 = none ∧
    Workspace.add_snapshot ⟨"w", []⟩ [] 3 ⟨1, true, 0, 0⟩
      = ((⟨"w", []⟩, []), some ("KeyError")) ∧
    Workspace.add_report ⟨"w", []⟩ [] 3 ⟨1, true, 0, 0⟩
      = ((⟨"w", []⟩, []), some ("KeyError")) :=
  c9_missing_project_asymmetry ⟨"w", []⟩ [] 3 ⟨1, true, 0, 0⟩ rfl

theorem reloadSnapshotsList_preserves (se : Bool)
    (entries : List (UUIDv × Option SnapshotV)) :
    ∀ (cache : SnapCache) (sid : UUIDv) (ps : PSnapState),
    alLookup cache sid = some ps →
    alLookup (Project.reloadSnapshotsList se entries cache).1 sid = some ps := by
  induction entries with
  | nil =>
    intro cache sid ps h
    simpa [Project.reloadSnapshotsList] using h
  | cons hd rest ih =>
    intro cache sid ps h
    obtain ⟨k, c⟩ := hd
    by_cases hk : (alLookup cache k).isSome
    · simpa [Project.reloadSnapshotsList, hk] using ih cache sid ps h
    · have hks : k ≠ sid := by
        intro he
        subst he
        rw [h] at hk
        simp at hk
      cases c with
      | none =>
        cases se with
        | false => simpa [Project.reloadSnapshotsList, hk] using h
        | true => simpa [Project.reloadSnapshotsList, hk] using ih cache sid ps h
      | some suite =>
        have : alLookup (alInsert k (PSnapState.mk' k (some suite)) cache) sid = some ps := by
          rw [alLookup_alInsert, if_neg hks, h]
        simpa [Project.reloadSnapshotsList, hk] using ih _ sid ps this

/-- Claim C2: `Project.reload` (the `__dict__.update` touches only public
fields, since `_snapshots` is a slot-stored private attribute) and
`Project._reload_snapshots` (which skips every id already cached before
parsing anything) never remove or replace a cache entry: a snapshot id
cached before either reload is cached with the same object afterwards. -/
theorem c2_reload_preserves_cache (st : ProjState)
    (metadataFile : Option ProjectMetadata) (freshId : UUIDv) (fs : SnapFS)
    (skip_errors : Bool) (sid : UUIDv) (ps : PSnapState)
    (h : alLookup st.snapshots sid = some ps) :
    alLookup (Project.reload st metadataFile freshId).snapshots sid = some ps ∧
    alLookup ((Project.reload_snapshots skip_errors st fs).1).snapshots sid = some ps := by
  constructor
  · simpa [Project.reload] using h
  · simp only [Project.reload_snapshots]
    exact reloadSnapshotsList_preserves skip_errors _ _ sid ps h

theorem c2_reload_preserves_cache_witness :
    alLookup (Project.reload ⟨⟨0, "p", none, ⟨"d", []⟩⟩, "w",
        [(5, PSnapState.mk' 5 (some ⟨5, true, 0, 1⟩))]⟩
        (some ⟨9, "q", none, ⟨"d", []⟩⟩) 2).snapshots 5
      = some (PSnapState.mk' 5 (some ⟨5, true, 0, 1⟩)) ∧
    alLookup ((Project.reload_snapshots true ⟨⟨0, "p", none, ⟨"d", []⟩⟩, "w",
        [(5, PSnapState.mk' 5 (some ⟨5, true, 0, 1⟩))]⟩
        [(⟨⟨"w", 0⟩, 5⟩, some ⟨5, true, 0, 1⟩)]).1).snapshots 5
      = some (PSnapState.mk' 5 (some ⟨5, true, 0, 1⟩)) :=
  c2_reload_preserves_cache
    ⟨⟨0, "p", none, ⟨"d", []⟩⟩, "w", [(5, PSnapState.mk' 5 (some ⟨5, true, 0, 1⟩))]⟩
    (some ⟨9, "q", none, ⟨"d", []⟩⟩) 2
    [(⟨⟨"w", 0⟩, 5⟩, some ⟨5, true, 0, 1⟩)] true 5
    (PSnapState.mk' 5 (some ⟨5, true, 0, 1⟩)) (by decide)

/-- Claim C7: `Project.add_snapshot` writes exactly one file, at the
project-scoped path built from the workspace path, the project id and the
snapshot UUID, and registers the snapshot in the cache under that UUID;
distinct UUIDs always yield distinct file paths. -/
theorem c7_add_snapshot_file (st : ProjState) (fs : SnapFS) (s : SnapshotV) :
    (Project.add_snapshot st fs s).2
      = alInsert (ProjectSnapshot.path st.path s.id) (some s) fs ∧
    alLookup (Project.add_snapshot st fs s).2 (ProjectSnapshot.path st.path s.id)
      = some (some s) ∧
    (∀ q, q ≠ ProjectSnapshot.path st.path s.id →
      alLookup (Project.add_snapshot st fs s).2 q = alLookup fs q) ∧
    alLookup (Project.add_snapshot st fs s).1.snapshots s.id
      = some (PSnapState.mk' s.id (some s)) ∧
    ProjectSnapshot.path st.path s.id = ⟨⟨st.workspacePath, st.fields.id⟩, s.id⟩ ∧
    ∀ u1 u2 : UUIDv, u1 ≠ u2 →
      ProjectSnapshot.path st.path u1 ≠ ProjectSnapshot.path st.path u2 := by
  refine ⟨rfl, ?_, ?_, ?_, rfl, ?_⟩
  · show alLookup (alInsert (ProjectSnapshot.path st.path s.id) (some s) fs) _ = _
    rw [alLookup_alInsert, if_pos rfl]
  · intro q hq
    show alLookup (alInsert (ProjectSnapshot.path st.path s.id) (some s) fs) q = _
    rw [alLookup_alInsert, if_neg (fun he => hq he.symm)]
  · show alLookup (alInsert s.id (PSnapState.mk' s.id (some s)) st.snapshots) _ = _
    rw [alLookup_alInsert, if_pos rfl]
  · intro u1 u2 hne
    simp [ProjectSnapshot.path, SnapPath.mk.injEq]
    intro h
    exact absurd h hne

theorem c7_add_snapshot_file_witness :
    alLookup (Project.add_snapshot ⟨⟨0, "p", none, ⟨"d", []⟩⟩, "w", []⟩ [] ⟨4, true, 0, 0⟩).2
      (ProjectSnapshot.path ⟨"w", 0⟩ 4) = some (some ⟨4, true, 0, 0⟩) ∧
    alLookup (Project.add_snapshot ⟨⟨0, "p", none, ⟨"d", []⟩⟩, "w", []⟩ [] ⟨4, true, 0, 0⟩).2
      (ProjectSnapshot.path ⟨"w", 0⟩ 9) = alLookup ([] : SnapFS) (ProjectSnapshot.path ⟨"w", 0⟩ 9) ∧
    ProjectSnapshot.path ⟨"w", 0⟩ 1 ≠ ProjectSnapshot.path ⟨"w", 0⟩ 2 :=
  ⟨(c7_add_snapshot_file ⟨⟨0, "p", none, ⟨"d", []⟩⟩, "w", []⟩ [] ⟨4, true, 0, 0⟩).2.1,
   (c7_add_snapshot_file ⟨⟨0, "p", none, ⟨"d", []⟩⟩, "w", []⟩ [] ⟨4, true, 0, 0⟩).2.2.1
     (ProjectSnapshot.path ⟨"w", 0⟩ 9) (by decide),
   (c7_add_snapshot_file ⟨⟨0, "p", none, ⟨"d", []⟩⟩, "w", []⟩ [] ⟨4, true, 0, 0⟩).2.2.2.2.2
     1 2 (by decide)⟩

theorem reloadSnapshotsList_true_no_raise
    (entries : List (UUIDv × Option SnapshotV)) :
    ∀ cache : SnapCache, (Project.reloadSnapshotsList true entries cache).2 = false := by
  induction entries with
  | nil => intro cache; simp [Project.reloadSnapshotsList]
  | cons hd rest ih =>
    intro cache
    obtain ⟨k, c⟩ := hd
    by_cases hk : (alLookup cache k).isSome
    · simpa [Project.reloadSnapshotsList, hk] using ih cache
    · cases c with
      | none => simpa [Project.reloadSnapshotsList, hk] using ih cache
      | some suite => simpa [Project.reloadSnapshotsList, hk] using ih _

theorem reloadSnapshotsList_corrupt_not_added
    (entries : List (UUIDv × Option SnapshotV)) :
    ∀ (cache : SnapCache) (sid : UUIDv),
    (∀ c, (sid, c) ∈ entries → c = none) →
    alLookup cache sid = none →
    alLookup (Project.reloadSnapshotsList true entries cache).1 sid = none := by
  induction entries with
  | nil =>
    intro cache sid _ hc
    simpa [Project.reloadSnapshotsList] using hc
  | cons hd rest ih =>
    intro cache sid hall hc
    obtain ⟨k, c⟩ := hd
    have hrest : ∀ c, (sid, c) ∈ rest → c = none := by
      intro c hmem
      exact hall c (List.mem_cons_of_mem _ hmem)
    by_cases hk : (alLookup cache k).isSome
    · simpa [Project.reloadSnapshotsList, hk] using ih cache sid hrest hc
    · cases c with
      | none => simpa [Project.reloadSnapshotsList, hk] using ih cache sid hrest hc
      | some suite =>
        have hks : k ≠ sid := by
          intro he
          subst he
          have := hall (some suite) (List.mem_cons_self _ _)
          simp at this
        have hc' : alLookup (alInsert k (PSnapState.mk' k (some suite)) cache) sid = none := by
          rw [alLookup_alInsert, if_neg hks, hc]
        simpa [Project.reloadSnapshotsList, hk] using ih _ sid hrest hc'

theorem reloadSnapshotsList_false_raises
    (entries : List (UUIDv × Option SnapshotV)) :
    ∀ (cache : SnapCache) (sid : UUIDv),
    (sid, none) ∈ entries →
    (∀ c, (sid, c) ∈ entries → c = none) →
    alLookup cache sid = none →
    (Project.reloadSnapshotsList false entries cache).2 = true := by
  induction entries with
  | nil => intro cache sid h; simp at h
  | cons hd rest ih =>
    intro cache sid hmem hall hc
    obtain ⟨k, c⟩ := hd
    have hrest : ∀ c, (sid, c) ∈ rest → c = none := by
      intro c hmemr
      exact hall c (List.mem_cons_of_mem _ hmemr)
    by_cases hks : k = sid
    · subst hks
      have hcn : c = none := hall c (List.mem_cons_self _ _)
      subst hcn
      have hk : ¬ (alLookup cache k).isSome := by rw [hc]; simp
      simp [Project.reloadSnapshotsList, hk]
    · have hmemr : (sid, none) ∈ rest := by
        rcases List.mem_cons.1 hmem with h | h
        · exact absurd (congrArg Prod.fst h).symm hks
        · exact h
      by_cases hk : (alLookup cache k).isSome
      · simpa [Project.reloadSnapshotsList, hk] using ih cache sid hmemr hrest hc
      · cases c with
        | none => simp [Project.reloadSnapshotsList, hk]
        | some suite =>
          have hc' : alLookup (alInsert k (PSnapState.mk' k (some suite)) cache) sid = none := by
            rw [alLookup_alInsert, if_neg hks, hc]
          simpa [Project.reloadSnapshotsList, hk] using ih _ sid hmemr hrest hc'

/-- Claim C10: with its default `skip_errors=True`, `_reload_snapshots`
never re-raises a validation error and silently omits every corrupt file
from the cache, so the `reports` view (which calls it with the default)
never yields an entry for a corrupt file; only `skip_errors=False`
re-raises. -/
theorem c10_skip_errors (st : ProjState) (fs : SnapFS)
    (entries : List (UUIDv × Option SnapshotV)) (cache : SnapCache) (sid : UUIDv)
    (hall : ∀ c, (sid, c) ∈ entries → c = none)
    (hc : alLookup cache sid = none)
    (hmem : (sid, none) ∈ entries)
    (hallfs : ∀ c, (sid, c) ∈ listSnapshotDir st.path fs → c = none)
    (hcst : alLookup st.snapshots sid = none) :
    (Project.reloadSnapshotsList true entries cache).2 = false ∧
    alLookup (Project.reloadSnapshotsList true entries cache).1 sid = none ∧
    (Project.reloadSnapshotsList false entries cache).2 = true ∧
    (Project.reload_snapshots true st fs).2 = false ∧
    (∀ k r, (k, r) ∈ Project.reports st fs → k ≠ sid) := by
  refine ⟨reloadSnapshotsList_true_no_raise entries cache,
    reloadSnapshotsList_corrupt_not_added entries cache sid hall hc,
    reloadSnapshotsList_false_raises entries cache sid hmem hall hc,
    ?_, ?_⟩
  · simp only [Project.reload_snapshots]
    exact reloadSnapshotsList_true_no_raise _ _
  · intro k r hkr he
    subst he
    have hnone : alLookup (Project.reloadSnapshotsList true (listSnapshotDir st.path fs)
        st.snapshots).1 k = none :=
      reloadSnapshotsList_corrupt_not_added _ _ k hallfs hcst
    simp only [Project.reports, Project.reload_snapshots] at hkr
    rcases List.mem_filterMap.1 hkr with ⟨kv, hkv, heq⟩
    have hk1 : kv.1 = k := by
      rcases hv : ProjectSnapshot.valueProp _ _ kv.2 with _ | v
      · rw [hv] at heq
        simp at heq
      · rw [hv] at heq
        by_cases hrep : v.is_report
        · simp [hrep] at heq
          exact heq.1
        · simp [hrep] at heq
    have := alLookup_isSome_of_mem hkv
    rw [hk1] at this
    rw [hnone] at this
    simp at this

theorem c10_skip_errors_witness :
    (Project.reloadSnapshotsList true [(5, none)] []).2 = false ∧
    alLookup (Project.reloadSnapshotsList true [(5, none)] []).1 5 = none ∧
    (Project.reloadSnapshotsList false [(5, none)] []).2 = true ∧
    (Project.reload_snapshots true ⟨⟨0, "p", none, ⟨"d", []⟩⟩, "w", []⟩
      [(⟨⟨"w", 0⟩, 5⟩, none), (⟨⟨"w", 0⟩, 7⟩, some ⟨7, true, 0, 0⟩)]).2 = false ∧
    (∀ k r, (k, r) ∈ Project.reports ⟨⟨0, "p", none, ⟨"d", []⟩⟩, "w", []⟩
      [(⟨⟨"w", 0⟩, 5⟩, none), (⟨⟨"w", 0⟩, 7⟩, some ⟨7, true, 0, 0⟩)] → k ≠ 5) :=
  c10_skip_errors ⟨⟨0, "p", none, ⟨"d", []⟩⟩, "w", []⟩
    [(⟨⟨"w", 0⟩, 5⟩, none), (⟨⟨"w", 0⟩, 7⟩, some ⟨7, true, 0, 0⟩)]
    [(5, none)] [] 5
    (by intro c hc; simpa using hc)
    rfl
    (by simp)
    (by intro c hc; simpa [listSnapshotDir, ProjState.path] using hc)
    rfl

theorem reloadSnapshotsList_keys_subset (se : Bool)
    (entries : List (UUIDv × Option SnapshotV)) :
    ∀ (cache : SnapCache) (sid : UUIDv),
    sid ∈ (Project.reloadSnapshotsList se entries cache).1.map Prod.fst →
    sid ∈ cache.map Prod.fst ∨ ∃ c, (sid, c) ∈ entries := by
  induction entries with
  | nil =>
    intro cache sid h
    exact Or.inl (by simpa [Project.reloadSnapshotsList] using h)
  | cons hd rest ih =>
    intro cache sid h
    obtain ⟨k, c⟩ := hd
    by_cases hk : (alLookup cache k).isSome
    · rcases ih cache sid (by simpa [Project.reloadSnapshotsList, hk] using h) with h1 | ⟨c', h1⟩
      · exact Or.inl h1
      · exact Or.inr ⟨c', List.mem_cons_of_mem _ h1⟩
    · cases c with
      | none =>
        cases se with
        | true =>
          rcases ih cache sid (by simpa [Project.reloadSnapshotsList, hk] using h) with h1 | ⟨c', h1⟩
          · exact Or.inl h1
          · exact Or.inr ⟨c', List.mem_cons_of_mem _ h1⟩
        | false =>
          exact Or.inl (by simpa [Project.reloadSnapshotsList, hk] using h)
      | some suite =>
        rcases ih _ sid (by simpa [Project.reloadSnapshotsList, hk] using h) with h1 | ⟨c', h1⟩
        · rcases (mem_map_fst_alInsert cache k sid (PSnapState.mk' k (some suite))).1 h1 with
            he | h2
          · exact Or.inr ⟨some suite, he ▸ List.mem_cons_self _ _⟩
          · exact Or.inl h2
        · exact Or.inr ⟨c', List.mem_cons_of_mem _ h1⟩

theorem listSnapshotDir_path_mem {proj : ProjPath} {fs : SnapFS} {sid : UUIDv}
    {c : Option SnapshotV} (h : (sid, c) ∈ listSnapshotDir proj fs) :
    ProjectSnapshot.path proj sid ∈ fs.map Prod.fst := by
  simp only [listSnapshotDir, List.mem_map, List.mem_filter] at h
  rcases h with ⟨e, ⟨hmem, hdir⟩, heq⟩
  have h1 : e.1.snapshotId = sid := (Prod.mk.injEq _ _ _ _ ▸ heq).1
  have h2 : e.1.projectDir = proj := by simpa using hdir
  have : e.1 = ProjectSnapshot.path proj sid := by
    cases hp : e.1 with
    | mk d i =>
      rw [hp] at h1 h2
      simp at h1 h2
      simp [ProjectSnapshot.path, h1, h2]
  exact this ▸ List.mem_map_of_mem Prod.fst hmem

theorem cacheSubset_applyOp {x : ProjState × SnapFS} (op : ProjOp)
    (h : cacheSubset x.1 x.2) : cacheSubset (applyOp x op).1 (applyOp x op).2 := by
  obtain ⟨st, fs⟩ := x
  cases op with
  | add s =>
    intro sid hsid
    simp only [applyOp, Project.add_snapshot] at hsid ⊢
    rcases (mem_map_fst_alInsert _ _ _ _).1 hsid with he | h2
    · subst he
      exact (mem_map_fst_alInsert _ _ _ _).2 (Or.inl rfl)
    · exact (mem_map_fst_alInsert _ _ _ _).2 (Or.inr (h sid h2))
  | reloadSnaps =>
    intro sid hsid
    simp only [applyOp, Project.reload_snapshots] at hsid ⊢
    rcases reloadSnapshotsList_keys_subset true _ _ sid hsid with h1 | ⟨c, h1⟩
    · exact h sid h1
    · exact listSnapshotDir_path_mem h1

/-- Claim C3: starting from a freshly loaded project (empty cache), any
sequence of `add_snapshot` and `_reload_snapshots` operations keeps the set
of cached snapshot ids a subset of the snapshot files on disk:
`add_snapshot` writes its file before caching, and `_reload_snapshots` only
caches ids found by listing the directory. -/
theorem c3_cache_subset_of_disk (ops : List ProjOp) (st : ProjState) (fs : SnapFS)
    (h0 : st.snapshots = []) :
    cacheSubset (applyOps (st, fs) ops).1 (applyOps (st, fs) ops).2 := by
  have base : cacheSubset st fs := by
    intro sid hsid
    rw [h0] at hsid
    simp at hsid
  clear h0
  induction ops generalizing st fs with
  | nil => exact base
  | cons op rest ih =>
    have h1 : cacheSubset (applyOp (st, fs) op).1 (applyOp (st, fs) op).2 :=
      cacheSubset_applyOp op base
    have : applyOps (st, fs) (op :: rest) = applyOps (applyOp (st, fs) op) rest := rfl
    rw [this]
    have := ih (applyOp (st, fs) op).1 (applyOp (st, fs) op).2
    simpa using this h1

theorem c3_cache_subset_of_disk_witness :
    cacheSubset
      (applyOps (⟨⟨0, "p", none, ⟨"d", []⟩⟩, "w", []⟩, [])
        [ProjOp.add ⟨4, true, 0, 0⟩, ProjOp.reloadSnaps]).1
      (applyOps (⟨⟨0, "p", none, ⟨"d", []⟩⟩, "w", []⟩, [])
        [ProjOp.add ⟨4, true, 0, 0⟩, ProjOp.reloadSnaps]).2 :=
  c3_cache_subset_of_disk [ProjOp.add ⟨4, true, 0, 0⟩, ProjOp.reloadSnaps]
    ⟨⟨0, "p", none, ⟨"d", []⟩⟩, "w", []⟩ [] rfl

/-- Claim C1: `build_dashboard_info` first reloads (metadata reload, then
the snapshot reload performed inside the `reports` view, both from disk)
and passes to the dashboard builder exactly the reports of the reloaded
view whose timestamp lies in the half-open window: inclusive at
`timestamp_start`, exclusive at `timestamp_end`, with a `None` bound
imposing no constraint. -/
theorem c1_build_dashboard_info_window (st : ProjState) (fs : SnapFS)
    (metadataFile : Option ProjectMetadata) (freshId : UUIDv)
    (timestamp_start timestamp_end : Option Int) (r : ReportV) :
    r ∈ Project.build_dashboard_info st fs metadataFile freshId
        timestamp_start timestamp_end ↔
      (r ∈ (Project.reports (Project.reload st metadataFile freshId) fs).map
          (fun kv => kv.2) ∧
       (∀ a : Int, timestamp_start = some a → a ≤ r.timestamp) ∧
       (∀ b : Int, timestamp_end = some b → r.timestamp < b)) := by
  simp only [Project.build_dashboard_info, List.mem_filter]
  cases timestamp_start <;> cases timestamp_end <;>
    simp [decide_eq_true_eq, and_assoc]

/-- Claim C5 counterexample: with the duplicated statuses list
`[SUCCESS, SUCCESS]` and one point holding a single succeeded test, the
rendered counter is "2/1 SUCCESS, SUCCESS": `value` is 2 while only 1
result has its status in the list, and `value > total`, contradicting the
claimed `value <= total` for every input. -/
theorem c5_counter_value_exceeds_total_counterexample :
    counterValue [TestStatus.SUCCESS, TestStatus.SUCCESS]
      (buildNoneStatuses [(0, [TestStatus.SUCCESS])]) = 2 ∧
    counterTotal (buildNoneStatuses [(0, [TestStatus.SUCCESS])]) = 1 ∧
    ((buildNoneStatuses [(0, [TestStatus.SUCCESS])]).filter
      (fun x => decide (x ∈ [TestStatus.SUCCESS, TestStatus.SUCCESS]))).length = 1 ∧
    DashboardPanelTestSuiteCounter.buildText ⟨"t", [TestStatus.SUCCESS, TestStatus.SUCCESS]⟩
      [(0, [TestStatus.SUCCESS])] = "2/1 SUCCESS, SUCCESS" ∧
    ¬ (counterValue [TestStatus.SUCCESS, TestStatus.SUCCESS]
        (buildNoneStatuses [(0, [TestStatus.SUCCESS])])
      ≤ counterTotal (buildNoneStatuses [(0, [TestStatus.SUCCESS])])) := by
  refine ⟨by decide, by decide, by decide, ?_, by decide⟩
  rfl

theorem countP_or_disjoint {α : Type} (p q : α → Bool)
    (hdisj : ∀ x, ¬(p x = true ∧ q x = true)) :
    ∀ l : List α, l.countP (fun x => p x || q x) = l.countP p + l.countP q := by
  intro l
  induction l with
  | nil => simp
  | cons hd tl ih =>
    by_cases hp : p hd
    · have hq : ¬ q hd = true := fun hq => hdisj hd ⟨hp, hq⟩
      simp [List.countP_cons, hp, hq, ih]
      omega
    · by_cases hq : q hd
      · simp [List.countP_cons, hp, hq, ih]
        omega
      · simp [List.countP_cons, hp, hq, ih]

theorem sum_count_eq_countP_mem (l : List TestStatus) :
    ∀ sl : List TestStatus, sl.Nodup →
    (sl.map (fun s => l.count s)).sum = l.countP (fun x => decide (x ∈ sl)) := by
  intro sl
  induction sl with
  | nil =>
    intro _
    have : l.countP (fun x => decide (x ∈ ([] : List TestStatus))) = 0 := by
      rw [List.countP_eq_length_filter]
      simp
    simp [this]
  | cons s rest ih =>
    intro hnd
    have hs : s ∉ rest := (List.nodup_cons.1 hnd).1
    have hrest := ih (List.nodup_cons.1 hnd).2
    have hcongr : l.countP (fun x => decide (x ∈ s :: rest))
        = l.countP (fun x => (x == s) || decide (x ∈ rest)) := by
      apply List.countP_congr
      intro a _
      by_cases h1 : a = s
      · simp [h1]
      · simp [h1]
    have hdisj : ∀ x : TestStatus, ¬((x == s) = true ∧ decide (x ∈ rest) = true) := by
      intro x ⟨h1, h2⟩
      have : x = s := by simpa using h1
      subst this
      exact hs (by simpa using h2)
    have hsplit := countP_or_disjoint (fun x : TestStatus => x == s)
      (fun x => decide (x ∈ rest)) hdisj l
    have hcount : l.count s = l.countP (fun x => x == s) := by
      simp [List.count]
    simp only [List.map_cons, List.sum_cons, hcongr, hsplit, hrest, hcount]

/-- Claim C5 amended: for a `DashboardPanelTestSuiteCounter` with
aggregation `NONE` whose `statuses` list has no duplicate entries, the
rendered text is "value/total" followed by the configured status names,
`total` counts every test result over all points in the window, `value`
counts the results whose status lies in the statuses list, and
`value <= total`.  (With duplicates in `statuses`, `value` counts one
result once per duplicate and can exceed `total`.) -/
theorem c5_counter_none_amended (panel : TestSuiteCounterPanel)
    (points : List (Nat × List TestStatus)) (hnd : panel.statuses.Nodup) :
    counterValue panel.statuses (buildNoneStatuses points)
      = ((buildNoneStatuses points).filter
          (fun x => decide (x ∈ panel.statuses))).length ∧
    counterValue panel.statuses (buildNoneStatuses points)
      ≤ counterTotal (buildNoneStatuses points) ∧
    DashboardPanelTestSuiteCounter.buildText panel points
      = toString (counterValue panel.statuses (buildNoneStatuses points)) ++ "/"
        ++ toString (counterTotal (buildNoneStatuses points)) ++ " "
        ++ statusesJoin panel.statuses := by
  have h1 : counterValue panel.statuses (buildNoneStatuses points)
      = ((buildNoneStatuses points).filter
          (fun x => decide (x ∈ panel.statuses))).length := by
    rw [counterValue, sum_count_eq_countP_mem _ _ hnd, List.countP_eq_length_filter]
  refine ⟨h1, ?_, ?_⟩
  · rw [h1, counterTotal]
    exact List.length_filter_le _ _
  · simp [DashboardPanelTestSuiteCounter.buildText]

theorem c5_counter_none_amended_witness :
    counterValue [TestStatus.SUCCESS, TestStatus.FAIL]
      (buildNoneStatuses [(0, [TestStatus.SUCCESS, TestStatus.SKIPPED]),
        (1, [TestStatus.FAIL])])
      = ((buildNoneStatuses [(0, [TestStatus.SUCCESS, TestStatus.SKIPPED]),
          (1, [TestStatus.FAIL])]).filter
          (fun x => decide (x ∈ [TestStatus.SUCCESS, TestStatus.FAIL]))).length ∧
    counterValue [TestStatus.SUCCESS, TestStatus.FAIL]
      (buildNoneStatuses [(0, [TestStatus.SUCCESS, TestStatus.SKIPPED]),
        (1, [TestStatus.FAIL])])
      ≤ counterTotal (buildNoneStatuses [(0, [TestStatus.SUCCESS, TestStatus.SKIPPED]),
        (1, [TestStatus.FAIL])]) ∧
    DashboardPanelTestSuiteCounter.buildText ⟨"t", [TestStatus.SUCCESS, TestStatus.FAIL]⟩
      [(0, [TestStatus.SUCCESS, TestStatus.SKIPPED]), (1, [TestStatus.FAIL])]
      = toString (counterValue [TestStatus.SUCCESS, TestStatus.FAIL]
          (buildNoneStatuses [(0, [TestStatus.SUCCESS, TestStatus.SKIPPED]),
            (1, [TestStatus.FAIL])])) ++ "/"
        ++ toString (counterTotal (buildNoneStatuses
            [(0, [TestStatus.SUCCESS, TestStatus.SKIPPED]), (1, [TestStatus.FAIL])])) ++ " "
        ++ statusesJoin [TestStatus.SUCCESS, TestStatus.FAIL] :=
  c5_counter_none_amended ⟨"t", [TestStatus.SUCCESS, TestStatus.FAIL]⟩
    [(0, [TestStatus.SUCCESS, TestStatus.SKIPPED]), (1, [TestStatus.FAIL])]
    (by decide)

/-- Claim C6 counterexample: two subdirectories whose metadata files carry
the same project UUID load as two projects, but the UUID-keyed map retains
only the later one, so `list_projects` does not return exactly the loaded
projects. -/
theorem c6_duplicate_project_id_counterexample :
    (Workspace.loadedProjects ("w")
      [⟨"a", true, some ⟨7, "p1", none, ⟨"d", []⟩⟩, 0⟩,
       ⟨"b", true, some ⟨7, "p2", none, ⟨"d", []⟩⟩, 1⟩]).length = 2 ∧
    (Workspace.list_projects (Workspace.init ("w")
      [⟨"a", true, some ⟨7, "p1", none, ⟨"d", []⟩⟩, 0⟩,
       ⟨"b", true, some ⟨7, "p2", none, ⟨"d", []⟩⟩, 1⟩]).1).length = 1 ∧
    Workspace.list_projects (Workspace.init ("w")
      [⟨"a", true, some ⟨7, "p1", none, ⟨"d", []⟩⟩, 0⟩,
       ⟨"b", true, some ⟨7, "p2", none, ⟨"d", []⟩⟩, 1⟩]).1
      ≠ Workspace.loadedProjects ("w")
      [⟨"a", true, some ⟨7, "p1", none, ⟨"d", []⟩⟩, 0⟩,
       ⟨"b", true, some ⟨7, "p2", none, ⟨"d", []⟩⟩, 1⟩] := by
  refine ⟨by decide, by decide, by decide⟩

theorem foldl_alInsert_fresh {α β : Type} [DecidableEq α] (key : β → α) :
    ∀ (ps : List β) (m : List (α × β)),
    (ps.map key).Nodup →
    (∀ p ∈ ps, alLookup m (key p) = none) →
    ps.foldl (fun m p => alInsert (key p) p m) m
      = m ++ ps.map (fun p => (key p, p)) := by
  intro ps
  induction ps with
  | nil =>
    intro m _ _
    simp
  | cons p rest ih =>
    intro m hnd hfresh
    have h1 : alLookup m (key p) = none := hfresh p (List.mem_cons_self _ _)
    have hnd' : (rest.map key).Nodup := (List.nodup_cons.1 (by simpa using hnd)).2
    have hkp : key p ∉ rest.map key := (List.nodup_cons.1 (by simpa using hnd)).1
    have hfresh' : ∀ q ∈ rest, alLookup (m ++ [(key p, p)]) (key q) = none := by
      intro q hq
      have hne : key p ≠ key q := fun he => hkp (he ▸ List.mem_map_of_mem key hq)
      rw [alLookup_append, hfresh q (List.mem_cons_of_mem _ hq)]
      simp [alLookup, hne]
    have step : (p :: rest).foldl (fun m p => alInsert (key p) p m) m
        = rest.foldl (fun m p => alInsert (key p) p m) (alInsert (key p) p m) := rfl
    rw [step, alInsert_eq_append p h1, ih (m ++ [(key p, p)]) hnd' hfresh']
    simp

theorem alLookup_map_pair {α β : Type} [DecidableEq α] (key : β → α) :
    ∀ (ps : List β) (p : β), (ps.map key).Nodup → p ∈ ps →
    alLookup (ps.map (fun q => (key q, q))) (key p) = some p := by
  intro ps
  induction ps with
  | nil =>
    intro p _ hp
    simp at hp
  | cons q rest ih =>
    intro p hnd hp
    have hkq : key q ∉ rest.map key := (List.nodup_cons.1 (by simpa using hnd)).1
    have hnd' : (rest.map key).Nodup := (List.nodup_cons.1 (by simpa using hnd)).2
    by_cases h : key q = key p
    · have hpq : p = q := by
        rcases List.mem_cons.1 hp with h1 | h1
        · exact h1
        · exact absurd (h ▸ List.mem_map_of_mem key h1) hkq
      subst hpq
      simp [alLookup, h]
    · have h1 : p ∈ rest := by
        rcases List.mem_cons.1 hp with h1 | h1
        · exact absurd (h1 ▸ rfl) h
        · exact h1
      simpa [alLookup, h] using ih p hnd' h1

theorem alLookup_map_pair_none {α β : Type} [DecidableEq α] (key : β → α) :
    ∀ (ps : List β) (a : α), a ∉ ps.map key →
    alLookup (ps.map (fun q => (key q, q))) a = none := by
  intro ps
  induction ps with
  | nil =>
    intro a _
    rfl
  | cons q rest ih =>
    intro a ha
    have h1 : key q ≠ a := fun he => ha (by simp [he])
    have h2 : a ∉ rest.map key := fun hm => ha (by simp [hm])
    simpa [alLookup, h1] using ih a h2

/-- Claim C6 amended: `Workspace.__init__` scans the workspace directory
exactly once and loads one project per subdirectory; when the loaded
projects have pairwise distinct UUIDs, the map is keyed by each project
UUID, `get_project` returns the project whose metadata id matches (`None`
when absent) and `list_projects` returns exactly the loaded projects;
neither accessor rescans the directory (both are functions of the stored
map alone).  When two subdirectories yield the same UUID, the later one
silently replaces the earlier in the map. -/
theorem c6_workspace_load_amended (path : String) (entries : List WsEntry)
    (hnd : ((Workspace.loadedProjects path entries).map (fun p => p.fields.id)).Nodup) :
    (Workspace.init path entries).2 = 1 ∧
    (Workspace.init path entries).1.projects
      = (Workspace.loadedProjects path entries).map (fun p => (p.fields.id, p)) ∧
    Workspace.list_projects (Workspace.init path entries).1
      = Workspace.loadedProjects path entries ∧
    (∀ p ∈ Workspace.loadedProjects path entries,
      Workspace.get_project (Workspace.init path entries).1 p.fields.id = some p) ∧
    (∀ pid, pid ∉ (Workspace.loadedProjects path entries).map (fun p => p.fields.id) →
      Workspace.get_project (Workspace.init path entries).1 pid = none) := by
  have hmap : Workspace.load_projects path entries
      = (Workspace.loadedProjects path entries).map (fun p => (p.fields.id, p)) := by
    rw [Workspace.load_projects]
    have h := foldl_alInsert_fresh (fun p : ProjState => p.fields.id)
      (Workspace.loadedProjects path entries) [] hnd (fun p _ => rfl)
    simpa using h
  refine ⟨rfl, hmap, ?_, ?_, ?_⟩
  · show (Workspace.load_projects path entries).map (fun kv => kv.2) = _
    rw [hmap, List.map_map]
    exact List.map_id _
  · intro p hp
    show alLookup (Workspace.load_projects path entries) p.fields.id = some p
    rw [hmap]
    exact alLookup_map_pair (fun p : ProjState => p.fields.id) _ p hnd hp
  · intro pid hpid
    show alLookup (Workspace.load_projects path entries) pid = none
    rw [hmap]
    exact alLookup_map_pair_none (fun p : ProjState => p.fields.id) _ pid hpid

theorem c6_workspace_load_amended_witness :
    Workspace.list_projects (Workspace.init ("w")
      [⟨"a", true, some ⟨7, "p1", none, ⟨"d", []⟩⟩, 0⟩,
       ⟨"b", true, some ⟨8, "p2", none, ⟨"d", []⟩⟩, 1⟩]).1
      = Workspace.loadedProjects ("w")
      [⟨"a", true, some ⟨7, "p1", none, ⟨"d", []⟩⟩, 0⟩,
       ⟨"b", true, some ⟨8, "p2", none, ⟨"d", []⟩⟩, 1⟩] ∧
    (∀ p ∈ Workspace.loadedProjects ("w")
      [⟨"a", true, some ⟨7, "p1", none, ⟨"d", []⟩⟩, 0⟩,
       ⟨"b", true, some ⟨8, "p2", none, ⟨"d", []⟩⟩, 1⟩],
      Workspace.get_project (Workspace.init ("w")
        [⟨"a", true, some ⟨7, "p1", none, ⟨"d", []⟩⟩, 0⟩,
         ⟨"b", true, some ⟨8, "p2", none, ⟨"d", []⟩⟩, 1⟩]).1 p.fields.id = some p) :=
  ⟨(c6_workspace_load_amended ("w")
      [⟨"a", true, some ⟨7, "p1", none, ⟨"d", []⟩⟩, 0⟩,
       ⟨"b", true, some ⟨8, "p2", none, ⟨"d", []⟩⟩, 1⟩] (by decide)).2.2.1,
   (c6_workspace_load_amended ("w")
      [⟨"a", true, some ⟨7, "p1", none, ⟨"d", []⟩⟩, 0⟩,
       ⟨"b", true, some ⟨8, "p2", none, ⟨"d", []⟩⟩, 1⟩] (by decide)).2.2.2.1⟩

/-- Claim C4 counterexample: a `ProjectSnapshot` constructed with an
in-memory value has an empty `_report` cache field, yet the first `report`
access performs no file read (it derives the report from the cached value),
contradicting "the first access that finds its cache field empty triggers a
load from the snapshot file". -/
theorem c4_report_access_no_read_counterexample :
    (PSnapState.mk' 0 (some ⟨0, true, 3, 5⟩)).report? = none ∧
    (runAccess ⟨0, true, 3, 5⟩ Access.report (PSnapState.mk' 0 (some ⟨0, true, 3, 5⟩))).2 = 0 ∧
    (runAccess ⟨0, true, 3, 5⟩ Access.report (PSnapState.mk' 0 (some ⟨0, true, 3, 5⟩))).1.report?
      = some (SnapshotV.as_report ⟨0, true, 3, 5⟩) :=
  ⟨rfl, rfl, rfl⟩

theorem loadM_value (file : SnapshotV) (s : PSnapState) :
    (ProjectSnapshot.loadM file s).value? = some file := by
  cases h : s.report? <;> simp [ProjectSnapshot.loadM, h]

theorem loadM_dash (file : SnapshotV) (s : PSnapState) :
    (ProjectSnapshot.loadM file s).dashboard_info?.isSome := by
  cases h : s.report? <;> simp [ProjectSnapshot.loadM, h]

theorem loadM_graphs (file : SnapshotV) (s : PSnapState) :
    (ProjectSnapshot.loadM file s).additional_graphs?.isSome := by
  cases h : s.report? <;> simp [ProjectSnapshot.loadM, h]

theorem fullySet_loadM (file : SnapshotV) (s : PSnapState) :
    fullySet (ProjectSnapshot.loadM file s) :=
  ⟨by rw [loadM_value]; rfl, loadM_dash file s, loadM_graphs file s⟩

theorem runAccess_reads_le_one (file : SnapshotV) (a : Access) (s : PSnapState) :
    (runAccess file a s).2 ≤ 1 ∧
    ((runAccess file a s).2 ≠ 0 → fullySet (runAccess file a s).1) := by
  cases a with
  | value =>
    cases h : s.value? with
    | none =>
      refine ⟨?_, fun _ => ?_⟩
      · simp [runAccess, accessValue, h]
      · simpa [runAccess, accessValue, h] using fullySet_loadM file s
    | some v => simp [runAccess, accessValue, h]
  | report =>
    cases h : s.report? with
    | some r => simp [runAccess, accessReport, h]
    | none =>
      cases hv : s.value? with
      | some v => simp [runAccess, accessReport, accessValue, h, hv]
      | none =>
        have hval : (ProjectSnapshot.loadM file s).value? = some file := loadM_value file s
        refine ⟨?_, fun _ => ?_⟩
        · simp [runAccess, accessReport, accessValue, h, hv, hval]
        · simp only [runAccess, accessReport, accessValue, h, hv, hval]
          exact ⟨rfl, loadM_dash file s, loadM_graphs file s⟩
  | dashboard_info =>
    cases h : s.dashboard_info? with
    | none =>
      refine ⟨?_, fun _ => ?_⟩
      · simp [runAccess, accessDashboardInfo, h]
      · simpa [runAccess, accessDashboardInfo, h] using fullySet_loadM file s
    | some d => simp [runAccess, accessDashboardInfo, h]
  | additional_graphs =>
    cases h : s.additional_graphs? with
    | none =>
      refine ⟨?_, fun _ => ?_⟩
      · simp [runAccess, accessAdditionalGraphs, h]
      · simpa [runAccess, accessAdditionalGraphs, h] using fullySet_loadM file s
    | some g => simp [runAccess, accessAdditionalGraphs, h]

theorem runAccess_fullySet (file : SnapshotV) (a : Access) (s : PSnapState)
    (h : fullySet s) :
    (runAccess file a s).2 = 0 ∧ fullySet (runAccess file a s).1 := by
  obtain ⟨h1, h2, h3⟩ := h
  cases a with
  | value =>
    rcases Option.isSome_iff_exists.1 h1 with ⟨v, hv⟩
    simp [runAccess, accessValue, hv]
    exact ⟨by simp [hv], h2, h3⟩
  | report =>
    cases h : s.report? with
    | some r =>
      have hs : runAccess file Access.report s = (s, 0) := by
        simp [runAccess, accessReport, h]
      rw [hs]
      exact ⟨rfl, h1, h2, h3⟩
    | none =>
      rcases Option.isSome_iff_exists.1 h1 with ⟨v, hv⟩
      refine ⟨by simp [runAccess, accessReport, accessValue, h, hv], ?_⟩
      simp only [runAccess, accessReport, accessValue, h, hv]
      exact ⟨by simp [hv], h2, h3⟩
  | dashboard_info =>
    rcases Option.isSome_iff_exists.1 h2 with ⟨d, hd⟩
    simp [runAccess, accessDashboardInfo, hd]
    exact ⟨h1, by simp [hd], h3⟩
  | additional_graphs =>
    rcases Option.isSome_iff_exists.1 h3 with ⟨g, hg⟩
    simp [runAccess, accessAdditionalGraphs, hg]
    exact ⟨h1, h2, by simp [hg]⟩

theorem runAccesses_fullySet (file : SnapshotV) (l : List Access) :
    ∀ s : PSnapState, fullySet s →
    (runAccesses file l s).2 = 0 ∧ fullySet (runAccesses file l s).1 := by
  induction l with
  | nil => intro s h; exact ⟨rfl, h⟩
  | cons a rest ih =>
    intro s h
    obtain ⟨hz, hf⟩ := runAccess_fullySet file a s h
    obtain ⟨hz2, hf2⟩ := ih (runAccess file a s).1 hf
    refine ⟨?_, hf2⟩
    simp only [runAccesses, hz, hz2]

theorem runAccess_value_isSome (file : SnapshotV) (a : Access) (s : PSnapState)
    (h : s.value?.isSome) : (runAccess file a s).1.value?.isSome := by
  cases a with
  | value =>
    rcases Option.isSome_iff_exists.1 h with ⟨v, hv⟩
    simp [runAccess, accessValue, hv]
  | report =>
    cases hr : s.report? with
    | some r => simpa [runAccess, accessReport, hr] using h
    | none =>
      rcases Option.isSome_iff_exists.1 h with ⟨v, hv⟩
      simp [runAccess, accessReport, accessValue, hr, hv]
  | dashboard_info =>
    cases hd : s.dashboard_info? with
    | some d => simpa [runAccess, accessDashboardInfo, hd] using h
    | none => simp [runAccess, accessDashboardInfo, hd, loadM_value]
  | additional_graphs =>
    cases hg : s.additional_graphs? with
    | some g => simpa [runAccess, accessAdditionalGraphs, hg] using h
    | none => simp [runAccess, accessAdditionalGraphs, hg, loadM_value]

/-- Claim C4 amended: the snapshot accessor is lazy and cached: the file is
read at most once across any sequence of accesses to `value`, `report`,
`dashboard_info` and `additional_graphs`; a first access that finds the
`value`, `dashboard_info` or `additional_graphs` cache field empty reads
the file exactly once, while a `report` access that finds its cache field
empty reads the file only when the value cache is also empty (otherwise it
derives the report from the cached value without touching the file); an
access that finds its cache field set returns the cached object with no
read and no state change; a snapshot constructed with an in-memory value
keeps its value cached through any access sequence, so its `value`
accesses never read the file. -/
theorem c4_lazy_cached_amended (file : SnapshotV) :
    (∀ (l : List Access) (s : PSnapState), (runAccesses file l s).2 ≤ 1) ∧
    (∀ s : PSnapState, s.value? = none → (runAccess file Access.value s).2 = 1) ∧
    (∀ s : PSnapState, s.dashboard_info? = none →
      (runAccess file Access.dashboard_info s).2 = 1) ∧
    (∀ s : PSnapState, s.additional_graphs? = none →
      (runAccess file Access.additional_graphs s).2 = 1) ∧
    (∀ s : PSnapState, s.report? = none → s.value?.isSome →
      (runAccess file Access.report s).2 = 0) ∧
    (∀ s : PSnapState, s.report? = none → s.value? = none →
      (runAccess file Access.report s).2 = 1) ∧
    (∀ (s : PSnapState) (v : SnapshotV), s.value? = some v →
      runAccess file Access.value s = (s, 0)) ∧
    (∀ (s : PSnapState) (r : ReportV), s.report? = some r →
      runAccess file Access.report s = (s, 0)) ∧
    (∀ (s : PSnapState) (d : DashboardInfoV), s.dashboard_info? = some d →
      runAccess file Access.dashboard_info s = (s, 0)) ∧
    (∀ (s : PSnapState) (g : AdditionalGraphsV), s.additional_graphs? = some g →
      runAccess file Access.additional_graphs s = (s, 0)) ∧
    (∀ (l : List Access) (s : PSnapState), s.value?.isSome →
      (runAccesses file l s).1.value?.isSome) := by
  refine ⟨?_, ?_, ?_, ?_, ?_, ?_, ?_, ?_, ?_, ?_, ?_⟩
  · intro l
    induction l with
    | nil => intro s; simp [runAccesses]
    | cons a rest ih =>
      intro s
      obtain ⟨hle, hfull⟩ := runAccess_reads_le_one file a s
      cases hn : (runAccess file a s).2 with
      | zero =>
        have := ih (runAccess file a s).1
        simp only [runAccesses, hn]
        omega
      | succ m =>
        have h1 : (runAccess file a s).2 = 1 := by omega
        have hf := hfull (by omega)
        obtain ⟨hz, _⟩ := runAccesses_fullySet file rest (runAccess file a s).1 hf
        simp only [runAccesses, hn, hz]
        omega
  · intro s h
    simp [runAccess, accessValue, h]
  · intro s h
    simp [runAccess, accessDashboardInfo, h]
  · intro s h
    simp [runAccess, accessAdditionalGraphs, h]
  · intro s h hv
    rcases Option.isSome_iff_exists.1 hv with ⟨v, hv2⟩
    simp [runAccess, accessReport, accessValue, h, hv2]
  · intro s h hv
    simp [runAccess, accessReport, accessValue, h, hv, loadM_value]
  · intro s v h
    simp [runAccess, accessValue, h]
  · intro s r h
    simp [runAccess, accessReport, h]
  · intro s d h
    simp [runAccess, accessDashboardInfo, h]
  · intro s g h
    simp [runAccess, accessAdditionalGraphs, h]
  · intro l
    induction l with
    | nil => intro s h; exact h
    | cons a rest ih =>
      intro s h
      exact ih (runAccess file a s).1 (runAccess_value_isSome file a s h)

theorem c4_lazy_cached_amended_witness :
    (runAccesses ⟨1, true, 0, 0⟩
      [Access.value, Access.dashboard_info, Access.report, Access.additional_graphs]
      (PSnapState.mk' 1 none)).2 ≤ 1 ∧
    (runAccess ⟨1, true, 0, 0⟩ Access.value (PSnapState.mk' 1 none)).2 = 1 ∧
    (runAccess ⟨1, true, 0, 0⟩ Access.report
      (PSnapState.mk' 1 (some ⟨1, true, 0, 0⟩))).2 = 0 ∧
    runAccess ⟨1, true, 0, 0⟩ Access.value (PSnapState.mk' 1 (some ⟨1, true, 0, 0⟩))
      = (PSnapState.mk' 1 (some ⟨1, true, 0, 0⟩), 0) ∧
    (runAccesses ⟨1, true, 0, 0⟩ [Access.report, Access.dashboard_info]
      (PSnapState.mk' 1 (some ⟨1, true, 0, 0⟩))).1.value?.isSome :=
  ⟨(c4_lazy_cached_amended ⟨1, true, 0, 0⟩).1
      [Access.value, Access.dashboard_info, Access.report, Access.additional_graphs]
      (PSnapState.mk' 1 none),
   (c4_lazy_cached_amended ⟨1, true, 0, 0⟩).2.1 (PSnapState.mk' 1 none) rfl,
   (c4_lazy_cached_amended ⟨1, true, 0, 0⟩).2.2.2.2.1
      (PSnapState.mk' 1 (some ⟨1, true, 0, 0⟩)) rfl rfl,
   (c4_lazy_cached_amended ⟨1, true, 0, 0⟩).2.2.2.2.2.2.1
      (PSnapState.mk' 1 (some ⟨1, true, 0, 0⟩)) ⟨1, true, 0, 0⟩ rfl,
   (c4_lazy_cached_amended ⟨1, true, 0, 0⟩).2.2.2.2.2.2.2.2.2.2
      [Access.report, Access.dashboard_info]
      (PSnapState.mk' 1 (some ⟨1, true, 0, 0⟩)) rfl⟩
